import Mathlib

/-!
Shallow embedding of `poc/custom_gateway/server_gateway.py` (class
`MarieServerGateway` and its helpers), the service-discovery /
routing-table core of the repository.

Conventions of the embedding:

* Python dicts that are used with string keys become association lists
  (`List (String × _)`) in insertion order, which matches Python's
  dict-iteration order.
* `urlparse`-based extraction of `f"{host}:{port}"` from a node address
  (in `update_gateway_streamer`) is abstracted as a parameter
  `hp : String → String`; every theorem below is proved for an arbitrary
  extraction function.
* `list(set(connections))` produces the distinct elements of
  `connections` in an unspecified order; it is modelled as `List.dedup`,
  which is faithful up to the (unspecified) ordering.
* The readiness probe `GRPCServer.is_ready(ctrl_address)` and the gRPC
  endpoint-discovery call are external effects; their observed results
  are supplied as oracle fields of the `put` event (`ready`,
  `endpointsFor`).
* Timestamps (`datetime.now()`) are abstracted as `Nat` arguments, one
  per call site.
-/

namespace MarieGateway

/-! ## Data model -/

/-- One entry of `self.deployment_nodes[executor]`: the
`deployment_details` dict built in `gateway_server_online`. -/
structure NodeDetails where
  address : String
  endpoint : String
  executor : String
  gateway : String
deriving DecidableEq

/-- `self.deployment_nodes`: dict from executor name to its discovered
node list, in insertion order. -/
abbrev DeploymentNodes := List (String × List NodeDetails)

/-- A `GatewayStreamer` object as far as the claims observe it: the
executor routing table it was constructed with, and the connection
count of the `RoundRobinLoadBalancer` constructed alongside it. -/
structure Streamer where
  executor_addresses : List (String × List String)
  connection_count : Nat
deriving DecidableEq

/-- The mutable state of `MarieServerGateway` touched by the discovery
event handlers.  `streamers` is the heap of streamer/balancer objects in
allocation order; `streamer_ref` (`self.streamer`) and
`distributor_streamer_ref` (`self.distributor.streamer`) are references
(indices) into that heap; `slots_available` is the class-level
`JobManager.SLOTS_AVAILABLE`. -/
structure GatewayState where
  deployment_nodes : DeploymentNodes
  streamers : List Streamer
  streamer_ref : Nat
  distributor_streamer_ref : Nat
  slots_available : Nat
deriving DecidableEq

/-- A decoded `put` discovery event: the announced gateway control
address and executor metadata (`JsonAddress`), plus oracles for the two
external probes performed while handling it. `ready k` is the result of
the k-th `GRPCServer.is_ready` call; `endpointsFor executor address` is
the endpoint list returned by the `endpoint_discovery` RPC for that
deployment address. -/
structure PutEvent where
  gateway : String
  metadata : List (String × List String)
  endpointsFor : String → String → List String
  ready : Nat → Bool

/-! ## Readiness probe loop (`gateway_server_online`, lines 492-509)

```
max_tries = 10; tries = 0; is_ready = False
while tries < max_tries:
    is_ready = GRPCServer.is_ready(ctrl_address)
    if is_ready: break
    time.sleep(1)
    tries += 1
```
-/

/-- One unrolling of the probe loop: `probeGo probe tries remaining`
returns `(number of probes performed, number of 1-second sleeps,
final is_ready)`. -/
def probeGo (probe : Nat → Bool) : Nat → Nat → Nat × Nat × Bool
  | _, 0 => (0, 0, false)
  | tries, rem + 1 =>
    if probe tries then (1, 0, true)
    else
      let r := probeGo probe (tries + 1) rem
      (r.1 + 1, r.2.1 + 1, r.2.2)

/-- The probe loop started at `tries = 0` with `max_tries` iterations
available. -/
def probeReady (probe : Nat → Bool) (maxTries : Nat) : Nat × Nat × Bool :=
  probeGo probe 0 maxTries

/-! ## Node accumulation (`gateway_server_online`, lines 522-565) -/

/-- `executor in self.deployment_nodes` (dict key membership). -/
def hasKey (dn : DeploymentNodes) (ex : String) : Prop :=
  ∃ p ∈ dn, p.1 = ex

instance (dn : DeploymentNodes) (ex : String) : Decidable (hasKey dn ex) :=
  inferInstanceAs (Decidable (∃ p ∈ dn, p.1 = ex))

/-- The body of the innermost discovery loop:
```
if executor not in self.deployment_nodes:
    self.deployment_nodes[executor] = []
self.deployment_nodes[executor].append(deployment_details)
```
A missing key is created at the end of the dict; the details record is
appended to the executor's list. -/
def addNode (dn : DeploymentNodes) (ex : String) (d : NodeDetails) : DeploymentNodes :=
  if hasKey dn ex then
    dn.map fun p => if p.1 = ex then (p.1, p.2 ++ [d]) else p
  else
    dn ++ [(ex, [d])]

/-- The `deployment_details` records produced by one `put` event, in the
order of the triple-nested loop
`for executor, deployment_addresses in metadata, for deployment_address,
for endpoint in endpoints`. -/
def eventDetails (ev : PutEvent) : List NodeDetails :=
  ev.metadata.flatMap fun em =>
    em.2.flatMap fun addr =>
      (ev.endpointsFor em.1 addr).map fun ep =>
        { address := addr, endpoint := ep, executor := em.1, gateway := ev.gateway }

/-- Folding `addNode` over a detail list. -/
def applyDetails (dn : DeploymentNodes) (ds : List NodeDetails) : DeploymentNodes :=
  ds.foldl (fun acc d => addNode acc d.executor d) dn

/-- The whole discovery section of `gateway_server_online`: append every
detail record generated by the event, in loop order. -/
def addNodesForEvent (dn : DeploymentNodes) (ev : PutEvent) : DeploymentNodes :=
  applyDetails dn (eventDetails ev)

/-! ## `update_gateway_streamer` (lines 576-617) -/

/-- The `deployments_addresses` dict: for each executor, the
deduplicated `f"{host}:{port}"` strings of its nodes
(`list(set(connections))`), with `hp` abstracting the
`urlparse`-based extraction. -/
def deriveAddresses (hp : String → String) (dn : DeploymentNodes) :
    List (String × List String) :=
  dn.map fun p => (p.1, (p.2.map fun n => hp n.address).dedup)

/-- Modelled from the spec: `RoundRobinLoadBalancer.connection_count`
and the connection wiring done by the `GatewayStreamer` constructor are
not under `src/`; per the spec the pool's capacity is the sum of
currently known discovered nodes, so the freshly built balancer holds
one connection per address in the routing table. -/
def connectionCount (addrs : List (String × List String)) : Nat :=
  (addrs.map fun p => p.2.length).sum

/-- The streamer/balancer pair constructed by `update_gateway_streamer`
from the current `deployment_nodes`. -/
def mkStreamer (hp : String → String) (dn : DeploymentNodes) : Streamer :=
  let addrs := deriveAddresses hp dn
  { executor_addresses := addrs, connection_count := connectionCount addrs }

/-- `update_gateway_streamer`: build a fresh balancer and streamer from
the current `deployment_nodes`, install the new object
(`self.streamer = streamer; self.distributor.streamer = streamer`), and
set `JobManager.SLOTS_AVAILABLE = load_balancer.connection_count()`.
The new object is appended to the heap; no existing object is written. -/
def update_gateway_streamer (hp : String → String) (st : GatewayState) : GatewayState :=
  let streamer := mkStreamer hp st.deployment_nodes
  { st with
    streamers := st.streamers ++ [streamer]
    streamer_ref := st.streamers.length
    distributor_streamer_ref := st.streamers.length
    slots_available := streamer.connection_count }

/-- The streamer object currently referenced by `self.streamer`. -/
def currentStreamer (st : GatewayState) : Option Streamer :=
  st.streamers[st.streamer_ref]?

/-! ## Event handlers -/

/-- `gateway_server_online`: probe readiness up to 10 times; if never
ready, log and return with the state untouched; otherwise discover and
append the event's nodes and rebuild the streamer. -/
def gateway_server_online (hp : String → String) (st : GatewayState) (ev : PutEvent) :
    GatewayState :=
  if (probeReady ev.ready 10).2.2 then
    update_gateway_streamer hp
      { st with deployment_nodes := addNodesForEvent st.deployment_nodes ev }
  else st

/-- Python `service.split("/")` on the character level (structurally
recursive so that it evaluates in the kernel). -/
def splitOnChar (c : Char) : List Char → List (List Char)
  | [] => [[]]
  | x :: rest =>
    let r := splitOnChar c rest
    if x = c then [] :: r
    else
      match r with
      | [] => [[x]]
      | h :: t => (x :: h) :: t

/-- `ctrl_address = service.split("/")[-1]`. -/
def lastSegment (service : String) : String :=
  ⟨(((splitOnChar '/' service.data).getLast?).getD [])⟩

/-- `gateway_server_offline`: drop every node whose `gateway` tag equals
the control address taken from the service key, then rebuild the
streamer. -/
def gateway_server_offline (hp : String → String) (st : GatewayState) (service : String) :
    GatewayState :=
  let ctrl := lastSegment service
  update_gateway_streamer hp
    { st with deployment_nodes :=
        st.deployment_nodes.map fun p => (p.1, p.2.filter fun n => decide (n.gateway ≠ ctrl)) }

/-- One discovery event as dispatched by `process_events`. -/
inductive DiscoveryEvent
  | put (ev : PutEvent)
  | del (service : String)

/-- Dispatch of `process_events` on the event type. -/
def applyEvent (hp : String → String) (st : GatewayState) : DiscoveryEvent → GatewayState
  | .put ev => gateway_server_online hp st ev
  | .del s => gateway_server_offline hp st s

/-- An event is applied (reaches `update_gateway_streamer`) when it is a
`delete`, or a `put` whose readiness probe succeeded. -/
def eventApplied : DiscoveryEvent → Prop
  | .put ev => (probeReady ev.ready 10).2.2 = true
  | .del _ => True

/-! ## `process_events` error counter (lines 438-470) -/

/-- The observable outcome of handling one dequeued event: the handler
either returns normally or raises. -/
inductive EvOutcome
  | ok
  | err
deriving DecidableEq

/-- Length of the leading run of errors. -/
def leadErrs : List EvOutcome → Nat
  | .err :: rest => leadErrs rest + 1
  | _ => 0

/-- `process_events`, driven by the outcome of each successive event:
returns `(events consumed before the loop ended, whether the loop broke
out of `while True`)`.  A success resets `error_counter` to 0; an error
increments it and the loop breaks when it reaches `max_errors`.  An
exhausted trace means the loop is still blocked on `event_queue.get()`. -/
def processEventsLoop (maxErrors : Nat) : Nat → List EvOutcome → Nat × Bool
  | _, [] => (0, false)
  | errorCounter, e :: rest =>
    match e with
    | .ok =>
      let r := processEventsLoop maxErrors 0 rest
      (r.1 + 1, r.2)
    | .err =>
      if errorCounter + 1 ≥ maxErrors then (1, true)
      else
        let r := processEventsLoop maxErrors (errorCounter + 1) rest
        (r.1 + 1, r.2)

/-- Whether the trace contains `k` consecutive errors somewhere. -/
def hasErrRun (k : Nat) : List EvOutcome → Bool
  | [] => k == 0
  | es@(_ :: rest) => decide (k ≤ leadErrs es) || hasErrRun k rest

/-! ## Request handling (`decode_request` and the command handlers)

`Response.parameters` dicts only ever hold string-renderable values in
this file, so parameters are modelled as string association lists. -/

/-- A `Response` as observed through its `parameters` dict. -/
structure Response where
  parameters : List (String × String)
deriving DecidableEq

/-- The `invoke_action` dict of an incoming request. -/
structure InvokeAction where
  command : Option String
  action : Option String
deriving DecidableEq

/-- `request.parameters` as far as `decode_request` reads it. -/
structure IncomingRequest where
  invoke_action : Option InvokeAction
deriving DecidableEq

/-- `error_response` exactly as defined (lines 341-354): it requires a
second positional parameter `exception` with no default value. -/
def error_response (msg : String) (exception : Option String) : Response :=
  { parameters :=
      [("status", "error"), ("msg", msg), ("exception", exception.getD "None")] }

/-- The exception text produced by Python when `error_response` is
invoked with a single argument, as every call site in the file does. -/
def errorResponseArityError : String :=
  "TypeError: error_response missing 1 required positional argument: exception"

/-- Semantics of the call `self.error_response(msg)`: the definition of
`error_response` takes `msg` and `exception` with no default for
`exception`, so the one-argument call raises before the body runs; the
intended message never reaches a `Response`. -/
def error_response_call1 (_msg : String) : Except String Response :=
  .error errorResponseArityError

/-- Items yielded by the streaming command handlers: plain `Response`
objects or the `DataRequest` built by the nodes-list branch (observed
through its document texts and parameters). -/
inductive YieldedItem
  | resp (r : Response)
  | data (docs : List String) (parameters : List (String × String))
deriving DecidableEq

instance {ε α : Type} [DecidableEq ε] [DecidableEq α] : DecidableEq (Except ε α) := fun x y =>
  match x, y with
  | .ok a, .ok b =>
    if h : a = b then isTrue (by rw [h]) else isFalse fun hc => h (Except.ok.inj hc)
  | .error a, .error b =>
    if h : a = b then isTrue (by rw [h]) else isFalse fun hc => h (Except.error.inj hc)
  | .ok _, .error _ => isFalse fun hc => Except.noConfusion hc
  | .error _, .ok _ => isFalse fun hc => Except.noConfusion hc

/-- `handle_job_submit_command` (lines 306-339), parameterized by the
outcome of `self.job_scheduler.submit_job(work_info)`: success returns
the ok response; a `ValueError` flows into a one-argument
`error_response` call, which itself raises. -/
def handle_job_submit_command (schedulerResult : Except String String) :
    Except String Response :=
  match schedulerResult with
  | .ok job_id =>
    .ok { parameters := [("status", "ok"), ("msg", "job submitted"), ("job_id", job_id)] }
  | .error ex => error_response_call1 ("Failed to submit job. " ++ ex)

/-- The fixed responses of the `status`, `logs` and `events` branches of
`handle_job_command`. -/
def statusOkResponse : Response :=
  { parameters := [("status", "ok"), ("msg", "Received status request")] }

def logsHeadResponse : Response :=
  { parameters := [("status", "ok"), ("msg", "Received logs request")] }

def logMessageResponse (i : Nat) : Response :=
  { parameters := [("msg", "log message #" ++ toString i)] }

def eventsOkResponse : Response :=
  { parameters := [("status", "ok"), ("msg", "Received events request")] }

/-- `handle_job_command` (lines 259-304): the sequence of items the
async generator yields, or the exception raised while generating.  The
unrecognized-action branch yields a one-argument `error_response` call,
which raises. -/
def handle_job_command (schedulerResult : Except String String)
    (message : InvokeAction) : Except String (List YieldedItem) :=
  match message.action with
  | some "status" => .ok [.resp statusOkResponse]
  | some "submit" =>
    match handle_job_submit_command schedulerResult with
    | .ok r => .ok [.resp r]
    | .error e => .error e
  | some "logs" =>
    .ok (.resp logsHeadResponse :: (List.range 10).map fun i => .resp (logMessageResponse i))
  | some "events" => .ok [.resp eventsOkResponse]
  | other =>
    (error_response_call1 ("Action not recognized : " ++ other.getD "None")).map
      fun r => [.resp r]

/-- The nodes-list accumulation (lines 239-246):
```
unique_nodes = set(); docs = []
for executor, nodes in self.deployment_nodes.items():
    for node in nodes:
        if node["address"] not in unique_nodes:
            unique_nodes.add(node["address"])
            docs.append(TextDoc(text=node["address"]))
```
The accumulator pairs the seen-set (as a list) with the doc texts. -/
def collectStep (acc : List String × List String) (n : NodeDetails) :
    List String × List String :=
  if n.address ∈ acc.1 then acc
  else (n.address :: acc.1, acc.2 ++ [n.address])

/-- The nodes-list double loop folded over the deployment map. -/
def collectNodeDocs (dn : DeploymentNodes) : List String × List String :=
  dn.foldl (fun acc p => p.2.foldl collectStep acc) ([], [])

/-- The document texts yielded by the nodes-list branch. -/
def nodesListDocs (dn : DeploymentNodes) : List String :=
  (collectNodeDocs dn).2

/-- `handle_nodes_command` (lines 225-257). -/
def handle_nodes_command (dn : DeploymentNodes) (message : InvokeAction) :
    Except String (List YieldedItem) :=
  match message.action with
  | some "list" =>
    .ok [.data (nodesListDocs dn)
      [("status", "ok"), ("msg", "Received nodes list request")]]
  | other =>
    (error_response_call1 ("Action not recognized : " ++ other.getD "None")).map
      fun r => [.resp r]

/-- The immediate `Response` for a request without `invoke_action`. -/
def missingInvokeActionResponse : Response :=
  { parameters := [("error", "Invalid request, missing invoke_action")] }

/-- What `decode_request` (lines 196-223) returns: either an immediate
`Response`, or an async-generator handle whose consumption yields a list
of items or raises. -/
inductive Decoded
  | response (r : Response)
  | stream (consumed : Except String (List YieldedItem))
deriving DecidableEq

/-- `decode_request`: a missing `invoke_action` returns an error-tagged
response; `job`/`nodes` commands return the matching generator (invoking
an async generator function does not run its body, so any exception
surfaces on consumption); any other command calls `error_response` with
one argument, which raises inside `decode_request` itself. -/
def decode_request (dn : DeploymentNodes) (schedulerResult : Except String String)
    (req : IncomingRequest) : Except String Decoded :=
  match req.invoke_action with
  | none => .ok (.response missingInvokeActionResponse)
  | some ia =>
    match ia.command with
    | some "job" => .ok (.stream (handle_job_command schedulerResult ia))
    | some "nodes" => .ok (.stream (handle_nodes_command dn ia))
    | other =>
      (error_response_call1
        ("Command not recognized or not implemented : " ++ other.getD "None")).map .response

/-! ## `WorkInfo` construction at the two submit entry points -/

/-- `WorkState` (from `marie_server.scheduler.state`) as used here. -/
inductive WorkState
  | CREATED
  | ACTIVE
  | COMPLETED
  | FAILED
  | CANCELLED
deriving DecidableEq

/-- A `WorkInfo` record; timestamps are abstract `Nat` clock readings. -/
structure WorkInfo where
  name : String
  priority : Int
  data : List (String × String)
  state : WorkState
  retry_limit : Nat
  retry_delay : Nat
  retry_backoff : Bool
  start_after : Nat
  expire_in_seconds : Nat
  keep_until : Nat
  on_complete : Bool
deriving DecidableEq

/-- The `WorkInfo(...)` literal built by `handle_job_submit_command`
(lines 313-325).  `message` is in scope but never read; `now1`/`now2`
are the two `datetime.now()` readings. -/
def handleJobSubmitWorkInfo (_message : InvokeAction) (now1 now2 : Nat) : WorkInfo :=
  { name := "WorkInfo-001"
    priority := 0
    data := []
    state := .CREATED
    retry_limit := 0
    retry_delay := 0
    retry_backoff := false
    start_after := now1
    expire_in_seconds := 0
    keep_until := now2
    on_complete := false }

/-- The `WorkInfo(...)` literal built by the `/job/submit` REST endpoint
(lines 118-130).  The query parameter `text` is never read. -/
def restJobSubmitWorkInfo (_text : String) (now1 now2 : Nat) : WorkInfo :=
  { name := "WorkInfo-001"
    priority := 0
    data := []
    state := .CREATED
    retry_limit := 0
    retry_delay := 0
    retry_backoff := false
    start_after := now1
    expire_in_seconds := 0
    keep_until := now2
    on_complete := false }

/-! ## Auxiliary notions used by the proofs -/

/-- Invariant tying a detail record to the deployment map: its
executor's key exists, and every entry under that key already contains
the record. -/
def allHave (dn : DeploymentNodes) (d : NodeDetails) : Prop :=
  hasKey dn d.executor ∧ ∀ p ∈ dn, p.1 = d.executor → d ∈ p.2

/-- The per-executor routing-table entry lengths of a streamer, the
observation used to compare two installed routing tables. -/
def tableLengths (s : Streamer) : List (String × Nat) :=
  s.executor_addresses.map fun p => (p.1, p.2.length)

/-! ## Concrete inputs used by witnesses and counterexamples -/

/-- The gateway state right after `__init__`: empty deployment map, no
streamer allocated yet. -/
def st0 : GatewayState :=
  { deployment_nodes := []
    streamers := []
    streamer_ref := 0
    distributor_streamer_ref := 0
    slots_available := 0 }

/-- A `put` event whose node is ready at the first probe. -/
def evUp : PutEvent :=
  { gateway := "gw-G"
    metadata := [("executor0", ["node-a:1"])]
    endpointsFor := fun _ _ => ["/extract"]
    ready := fun _ => true }

/-- A `put` event whose node never becomes ready. -/
def evDown : PutEvent :=
  { gateway := "gw-G"
    metadata := [("executor0", ["node-a:1"])]
    endpointsFor := fun _ _ => ["/extract"]
    ready := fun _ => false }

/-- A node announced by gateway `G`. -/
def nodeG : NodeDetails :=
  { address := "1.1.1.1:80", endpoint := "/extract", executor := "executor0", gateway := "G" }

/-- A node with the same deployment address announced by gateway `H`. -/
def nodeH : NodeDetails :=
  { address := "1.1.1.1:80", endpoint := "/extract", executor := "executor0", gateway := "H" }

/-- A state in which gateways `G` and `H` both announced the same
deployment address for `executor0`. -/
def stC2 : GatewayState :=
  { deployment_nodes := [("executor0", [nodeG, nodeH])]
    streamers := []
    streamer_ref := 0
    distributor_streamer_ref := 0
    slots_available := 0 }

/-! ## Lemmas about the deployment map -/

theorem addNode_of_hasKey {dn : DeploymentNodes} {ex : String} (d : NodeDetails)
    (h : hasKey dn ex) :
    addNode dn ex d = dn.map fun p => if p.1 = ex then (p.1, p.2 ++ [d]) else p := by
  simp only [addNode, if_pos h]

theorem addNode_of_not_hasKey {dn : DeploymentNodes} {ex : String} (d : NodeDetails)
    (h : ¬ hasKey dn ex) : addNode dn ex d = dn ++ [(ex, [d])] := by
  simp only [addNode, if_neg h]

theorem hasKey_map {dn : DeploymentNodes} {ex : String}
    {f : String × List NodeDetails → String × List NodeDetails}
    (hf : ∀ p, (f p).1 = p.1) : hasKey (dn.map f) ex ↔ hasKey dn ex := by
  constructor
  · rintro ⟨q, hq, hqe⟩
    rcases List.mem_map.1 hq with ⟨p, hp, rfl⟩
    exact ⟨p, hp, by rw [← hf p]; exact hqe⟩
  · rintro ⟨p, hp, hpe⟩
    exact ⟨f p, List.mem_map_of_mem f hp, by rw [hf p]; exact hpe⟩

theorem allHave_addNode_self (dn : DeploymentNodes) (d : NodeDetails) :
    allHave (addNode dn d.executor d) d := by
  by_cases h : hasKey dn d.executor
  · rw [addNode_of_hasKey d h]
    refine ⟨?_, ?_⟩
    · rcases h with ⟨p, hpmem, hpe⟩
      refine ⟨(p.1, p.2 ++ [d]), ?_, hpe⟩
      have he : (if p.1 = d.executor then (p.1, p.2 ++ [d]) else p) = (p.1, p.2 ++ [d]) :=
        if_pos hpe
      rw [← he]
      exact List.mem_map_of_mem _ hpmem
    · intro q hq hqe
      rcases List.mem_map.1 hq with ⟨p, hpmem, rfl⟩
      by_cases hpe : p.1 = d.executor
      · simp [if_pos hpe]
      · rw [if_neg hpe] at hqe ⊢
        exact absurd hqe hpe
  · rw [addNode_of_not_hasKey d h]
    refine ⟨⟨(d.executor, [d]), by simp, rfl⟩, ?_⟩
    intro q hq hqe
    rcases List.mem_append.1 hq with hq' | hq'
    · exact absurd ⟨q, hq', hqe⟩ h
    · simp only [List.mem_singleton] at hq'
      subst hq'
      simp

theorem allHave_addNode {dn : DeploymentNodes} {dp : NodeDetails} (ex : String)
    (d : NodeDetails) (h : allHave dn dp) : allHave (addNode dn ex d) dp := by
  obtain ⟨⟨p0, hp0, hp0e⟩, h2⟩ := h
  by_cases hk : hasKey dn ex
  · rw [addNode_of_hasKey d hk]
    refine ⟨?_, ?_⟩
    · refine ⟨_, List.mem_map_of_mem _ hp0, ?_⟩
      by_cases hpe : p0.1 = ex
      · rw [if_pos hpe]
        exact hp0e
      · rw [if_neg hpe]
        exact hp0e
    · intro q hq hqe
      rcases List.mem_map.1 hq with ⟨p, hpmem, rfl⟩
      by_cases hpe : p.1 = ex
      · rw [if_pos hpe] at hqe ⊢
        exact List.mem_append_left _ (h2 p hpmem hqe)
      · rw [if_neg hpe] at hqe ⊢
        exact h2 p hpmem hqe
  · rw [addNode_of_not_hasKey d hk]
    refine ⟨⟨p0, List.mem_append_left _ hp0, hp0e⟩, ?_⟩
    intro q hq hqe
    rcases List.mem_append.1 hq with hq' | hq'
    · exact h2 q hq' hqe
    · simp only [List.mem_singleton] at hq'
      subst hq'
      exact absurd ⟨p0, hp0, by rw [hp0e, ← hqe]⟩ hk

theorem allHave_applyDetails (ds : List NodeDetails) :
    ∀ (dn : DeploymentNodes) {dp : NodeDetails},
      allHave dn dp → allHave (applyDetails dn ds) dp := by
  induction ds with
  | nil => intro dn dp h; exact h
  | cons d rest ih =>
    intro dn dp h
    exact ih _ (allHave_addNode d.executor d h)

theorem allHave_applyDetails_mem (ds : List NodeDetails) :
    ∀ (dn : DeploymentNodes) {d : NodeDetails},
      d ∈ ds → allHave (applyDetails dn ds) d := by
  induction ds with
  | nil => intro _ _ h; cases h
  | cons d0 rest ih =>
    intro dn d h
    rcases List.mem_cons.1 h with rfl | h'
    · exact allHave_applyDetails rest _ (allHave_addNode_self dn d)
    · exact ih _ h'

theorem applyDetails_of_keys (ds : List NodeDetails) :
    ∀ (dn : DeploymentNodes), (∀ d ∈ ds, hasKey dn d.executor) →
      applyDetails dn ds
        = dn.map fun p => (p.1, p.2 ++ ds.filter fun x => decide (x.executor = p.1)) := by
  induction ds with
  | nil =>
    intro dn _
    simp [applyDetails]
  | cons d rest ih =>
    intro dn h
    have hd : hasKey dn d.executor := h d (List.mem_cons_self d rest)
    have step : applyDetails dn (d :: rest)
        = applyDetails
            (dn.map fun p => if p.1 = d.executor then (p.1, p.2 ++ [d]) else p) rest := by
      show applyDetails (addNode dn d.executor d) rest = _
      rw [addNode_of_hasKey d hd]
    have hfst : ∀ p : String × List NodeDetails,
        ((fun p => if p.1 = d.executor then (p.1, p.2 ++ [d]) else p) p).1 = p.1 := by
      intro p
      show (if p.1 = d.executor then (p.1, p.2 ++ [d]) else p).1 = p.1
      by_cases hpe : p.1 = d.executor
      · rw [if_pos hpe]
      · rw [if_neg hpe]
    have hkeys : ∀ x ∈ rest,
        hasKey (dn.map fun p => if p.1 = d.executor then (p.1, p.2 ++ [d]) else p)
          x.executor := by
      intro x hx
      rw [hasKey_map hfst]
      exact h x (List.mem_cons_of_mem _ hx)
    rw [step, ih _ hkeys, List.map_map]
    apply List.map_congr_left
    intro p _
    by_cases hpe : p.1 = d.executor
    · have hdp : decide (d.executor = p.1) = true := by
        simp [hpe.symm]
      simp only [Function.comp_apply, if_pos hpe, List.filter_cons, hdp]
      simp [List.append_assoc]
    · have hdp : decide (d.executor = p.1) = false := by
        simp only [decide_eq_false_iff_not]
        exact fun e => hpe e.symm
      simp only [Function.comp_apply, if_neg hpe, List.filter_cons, hdp]
      simp

theorem dedup_length_append {α : Type} [DecidableEq α] {l extra : List α}
    (h : ∀ x ∈ extra, x ∈ l) : (l ++ extra).dedup.length = l.dedup.length :=
  (List.Subset.dedup_append_left h).length_eq

theorem deriveAddresses_double_apply (hp : String → String) (dn : DeploymentNodes)
    (ds : List NodeDetails) :
    (deriveAddresses hp (applyDetails (applyDetails dn ds) ds)).map
        (fun p => (p.1, p.2.length))
      = (deriveAddresses hp (applyDetails dn ds)).map fun p => (p.1, p.2.length) := by
  have hkeys : ∀ d ∈ ds, hasKey (applyDetails dn ds) d.executor := fun d hd =>
    (allHave_applyDetails_mem ds dn hd).1
  rw [applyDetails_of_keys ds _ hkeys]
  unfold deriveAddresses
  rw [List.map_map, List.map_map, List.map_map]
  apply List.map_congr_left
  intro p hpmem
  simp only [Function.comp_apply]
  congr 1
  rw [List.map_append]
  apply dedup_length_append
  intro x hx
  rcases List.mem_map.1 hx with ⟨d, hd, rfl⟩
  rcases List.mem_filter.1 hd with ⟨hdds, hdex⟩
  have hex : d.executor = p.1 := of_decide_eq_true hdex
  exact List.mem_map_of_mem _ ((allHave_applyDetails_mem ds dn hdds).2 p hpmem hex.symm)

/-! ## Lemmas about the streamer swap -/

theorem currentStreamer_update (hp : String → String) (st : GatewayState) :
    currentStreamer (update_gateway_streamer hp st)
      = some (mkStreamer hp st.deployment_nodes) := by
  simp [currentStreamer, update_gateway_streamer, List.getElem?_concat_length]

theorem update_frame (hp : String → String) (st1 : GatewayState) :
    (update_gateway_streamer hp st1).streamers
        = st1.streamers ++ [mkStreamer hp (update_gateway_streamer hp st1).deployment_nodes]
    ∧ (update_gateway_streamer hp st1).streamer_ref = st1.streamers.length
    ∧ (update_gateway_streamer hp st1).distributor_streamer_ref = st1.streamers.length
    ∧ ∀ i, i < st1.streamers.length →
        (update_gateway_streamer hp st1).streamers[i]? = st1.streamers[i]? := by
  refine ⟨rfl, rfl, rfl, ?_⟩
  intro i hi
  exact List.getElem?_append_left hi

/-! ## Lemmas about the readiness probe loop -/

theorem probeGo_spec (probe : Nat → Bool) : ∀ (rem tries : Nat),
    (probeGo probe tries rem).1 ≤ rem
    ∧ ((probeGo probe tries rem).2.2 = true →
        (probeGo probe tries rem).2.1 + 1 = (probeGo probe tries rem).1)
    ∧ ((probeGo probe tries rem).2.2 = false →
        (probeGo probe tries rem).1 = rem ∧ (probeGo probe tries rem).2.1 = rem) := by
  intro rem
  induction rem with
  | zero =>
    intro tries
    simp [probeGo]
  | succ n ih =>
    intro tries
    by_cases h : probe tries
    · simp [probeGo, h]
    · obtain ⟨ih1, ih2, ih3⟩ := ih (tries + 1)
      simp only [probeGo, h, Bool.false_eq_true, if_false]
      refine ⟨by omega, ?_, ?_⟩
      · intro hr
        have := ih2 hr
        omega
      · intro hr
        have := ih3 hr
        omega

/-! ## Lemmas about the event-loop error counter -/

theorem hasErrRun_of_leadErrs {k : Nat} {es : List EvOutcome} (h : k ≤ leadErrs es) :
    hasErrRun k es = true := by
  cases es with
  | nil =>
    have hk : k = 0 := by
      simp only [leadErrs] at h
      omega
    simp [hasErrRun, hk]
  | cons e rest =>
    simp only [hasErrRun, Bool.or_eq_true, decide_eq_true_eq]
    exact Or.inl h

theorem processEventsLoop_stop_iff (m : Nat) : ∀ (es : List EvOutcome) (c : Nat), c < m →
    ((processEventsLoop m c es).2 = true ↔
      (m - c ≤ leadErrs es ∨ hasErrRun m es = true)) := by
  intro es
  induction es with
  | nil =>
    intro c hc
    simp only [processEventsLoop, leadErrs, hasErrRun, Bool.false_eq_true, false_iff]
    rintro (h | h)
    · omega
    · simp only [Nat.beq_eq_true_eq] at h
      omega
  | cons e rest ih =>
    intro c hc
    match e with
    | .ok =>
      have h0 : (0 : Nat) < m := by omega
      have hrest := ih 0 h0
      simp only [processEventsLoop]
      rw [hrest]
      have hlead : leadErrs (EvOutcome.ok :: rest) = 0 := rfl
      simp only [hasErrRun, hlead, Bool.or_eq_true, decide_eq_true_eq]
      constructor
      · rintro (h | h)
        · exact Or.inr (Or.inr (hasErrRun_of_leadErrs (by simpa using h)))
        · exact Or.inr (Or.inr h)
      · rintro (h | h | h)
        · omega
        · omega
        · exact Or.inr h
    | .err =>
      have hlead : leadErrs (EvOutcome.err :: rest) = leadErrs rest + 1 := rfl
      by_cases hbreak : c + 1 ≥ m
      · simp only [processEventsLoop, if_pos hbreak]
        simp only [hasErrRun, hlead, true_iff]
        left
        omega
      · have hrest := ih (c + 1) (by omega)
        simp only [processEventsLoop, if_neg hbreak]
        rw [hrest]
        simp only [hasErrRun, hlead, Bool.or_eq_true, decide_eq_true_eq]
        constructor
        · rintro (h | h)
          · left; omega
          · exact Or.inr (Or.inr h)
        · rintro (h | h | h)
          · left; omega
          · left; omega
          · exact Or.inr h

/-! ## Lemmas about the nodes-list fold -/

theorem collectStep_fold_inv (ns : List NodeDetails) :
    ∀ acc : List String × List String,
      acc.2.Nodup → (∀ x ∈ acc.2, x ∈ acc.1) →
      (ns.foldl collectStep acc).2.Nodup
        ∧ ∀ x ∈ (ns.foldl collectStep acc).2, x ∈ (ns.foldl collectStep acc).1 := by
  induction ns with
  | nil => intro acc h1 h2; exact ⟨h1, h2⟩
  | cons n rest ih =>
    intro acc h1 h2
    by_cases hmem : n.address ∈ acc.1
    · have hstep : collectStep acc n = acc := by
        simp [collectStep, hmem]
      simpa [hstep] using ih acc h1 h2
    · have hstep : collectStep acc n = (n.address :: acc.1, acc.2 ++ [n.address]) := by
        simp [collectStep, hmem]
      have hnotin : n.address ∉ acc.2 := fun hx => hmem (h2 _ hx)
      have hnd : (acc.2 ++ [n.address]).Nodup := by
        rw [List.nodup_append]
        refine ⟨h1, List.nodup_singleton _, ?_⟩
        intro x hx hx'
        simp only [List.mem_singleton] at hx'
        subst hx'
        exact hnotin hx
      have hsub : ∀ x ∈ acc.2 ++ [n.address], x ∈ n.address :: acc.1 := by
        intro x hx
        rcases List.mem_append.1 hx with hx' | hx'
        · exact List.mem_cons_of_mem _ (h2 x hx')
        · simp only [List.mem_singleton] at hx'
          subst hx'
          exact List.mem_cons_self _ _
      have := ih (n.address :: acc.1, acc.2 ++ [n.address]) hnd hsub
      simpa [hstep] using this

theorem collectNodeDocs_inv (dn : DeploymentNodes) :
    ∀ acc : List String × List String,
      acc.2.Nodup → (∀ x ∈ acc.2, x ∈ acc.1) →
      (dn.foldl (fun acc p => p.2.foldl collectStep acc) acc).2.Nodup := by
  induction dn with
  | nil => intro acc h1 _; exact h1
  | cons p rest ih =>
    intro acc h1 h2
    have := collectStep_fold_inv p.2 acc h1 h2
    exact ih _ this.1 this.2

/-! ## Claims -/

/-- Claim C1: applying a `put` twice for the same node address leaves
the routing table with that address once per executor: every
per-executor address list installed by `update_gateway_streamer` is
duplicate-free, and re-applying an already-applied `put` leaves every
per-executor list length unchanged. -/
theorem c1_put_idempotent (hp : String → String) (st : GatewayState) (ev : PutEvent)
    (hready : (probeReady ev.ready 10).2.2 = true) :
    (∀ (st' : GatewayState) (s : Streamer),
        currentStreamer (update_gateway_streamer hp st') = some s →
        ∀ p ∈ s.executor_addresses, p.2.Nodup)
    ∧ (currentStreamer (gateway_server_online hp (gateway_server_online hp st ev) ev)).map
          tableLengths
        = (currentStreamer (gateway_server_online hp st ev)).map tableLengths := by
  constructor
  · intro st' s hs p hpmem
    rw [currentStreamer_update] at hs
    cases hs
    rcases List.mem_map.1 hpmem with ⟨q, _, rfl⟩
    exact List.nodup_dedup _
  · have honline : ∀ s : GatewayState, gateway_server_online hp s ev
        = update_gateway_streamer hp
            { s with deployment_nodes := addNodesForEvent s.deployment_nodes ev } := by
      intro s
      simp [gateway_server_online, hready]
    rw [honline, honline, currentStreamer_update, currentStreamer_update]
    exact congrArg some (deriveAddresses_double_apply hp st.deployment_nodes (eventDetails ev))

/-- Witness for C1 at a concrete ready event applied twice to the fresh
gateway state. -/
theorem c1_put_idempotent_witness :
    (probeReady evUp.ready 10).2.2 = true
    ∧ (currentStreamer (gateway_server_online id (gateway_server_online id st0 evUp) evUp)).map
          tableLengths
        = (currentStreamer (gateway_server_online id st0 evUp)).map tableLengths :=
  ⟨by decide, (c1_put_idempotent id st0 evUp (by decide)).2⟩

/-- Claim C3: a `put` event probes readiness at most 10 times, with a
1-second sleep separating consecutive probes (`sleeps + 1 = probes` when
the node became ready); if the node is never ready the handler performs
all 10 probes and returns with the gateway state untouched. -/
theorem c3_put_bounded_probe (hp : String → String) (st : GatewayState) (ev : PutEvent) :
    (probeReady ev.ready 10).1 ≤ 10
    ∧ ((probeReady ev.ready 10).2.2 = true →
        (probeReady ev.ready 10).2.1 + 1 = (probeReady ev.ready 10).1)
    ∧ ((probeReady ev.ready 10).2.2 = false →
        (probeReady ev.ready 10).1 = 10
        ∧ gateway_server_online hp st ev = st) := by
  obtain ⟨h1, h2, h3⟩ := probeGo_spec ev.ready 10 0
  refine ⟨h1, h2, ?_⟩
  intro hfalse
  refine ⟨(h3 hfalse).1, ?_⟩
  simp [gateway_server_online, hfalse]

/-- Witness for C3 at a concrete never-ready event. -/
theorem c3_put_bounded_probe_witness :
    (probeReady evDown.ready 10).1 = 10 ∧ gateway_server_online id st0 evDown = st0 := by
  have h := c3_put_bounded_probe id st0 evDown
  have hf : (probeReady evDown.ready 10).2.2 = false := by decide
  exact ⟨(h.2.2 hf).1, (h.2.2 hf).2⟩

/-- Claim C4 counterexample: the loop exits after exactly 5 consecutive
failures (the counter reaching `max_errors` breaks the loop), while with
4 consecutive failures it keeps running — so it does not take more than
5 consecutive failures to stop, contrary to the claim. -/
theorem c4_counterexample :
    processEventsLoop 5 0 [.err, .err, .err, .err, .err] = (5, true)
    ∧ processEventsLoop 5 0 [.err, .err, .err, .err] = (4, false) := by
  decide

/-- Claim C4 as amended: a successful event resets the error counter,
and the loop breaks out of `while True` exactly when 5 consecutive
failures accumulate — never with fewer. -/
theorem c4_error_cap (es : List EvOutcome) :
    (processEventsLoop 5 0 es).2 = true ↔ hasErrRun 5 es = true := by
  rw [processEventsLoop_stop_iff 5 es 0 (by omega)]
  constructor
  · rintro (h | h)
    · exact hasErrRun_of_leadErrs (by omega)
    · exact h
  · exact Or.inr

/-- Claim C5: every applied discovery event (ready `put` or `delete`)
rebuilds the routing table from scratch into a freshly constructed
streamer/balancer object, appends it to the heap, and repoints both the
gateway's and the distributor's references at it; every previously
allocated streamer object is unchanged at its old heap slot. -/
theorem c5_swap_by_reference (hp : String → String) (st : GatewayState)
    (e : DiscoveryEvent) (happ : eventApplied e) :
    (applyEvent hp st e).streamers
        = st.streamers ++ [mkStreamer hp (applyEvent hp st e).deployment_nodes]
    ∧ (applyEvent hp st e).streamer_ref = st.streamers.length
    ∧ (applyEvent hp st e).distributor_streamer_ref = st.streamers.length
    ∧ ∀ i, i < st.streamers.length →
        (applyEvent hp st e).streamers[i]? = st.streamers[i]? := by
  cases e with
  | put ev =>
    have hready : (probeReady ev.ready 10).2.2 = true := happ
    have heq : applyEvent hp st (.put ev)
        = update_gateway_streamer hp
            { st with deployment_nodes := addNodesForEvent st.deployment_nodes ev } := by
      simp [applyEvent, gateway_server_online, hready]
    rw [heq]
    exact update_frame hp _
  | del s =>
    exact update_frame hp _

/-- Witness for C5 at a concrete `delete` event. -/
theorem c5_swap_by_reference_witness :
    (applyEvent id st0 (DiscoveryEvent.del "gw/G")).streamers
      = st0.streamers
        ++ [mkStreamer id (applyEvent id st0 (DiscoveryEvent.del "gw/G")).deployment_nodes] :=
  (c5_swap_by_reference id st0 (DiscoveryEvent.del "gw/G") trivial).1

/-- Claim C2 counterexample: gateways `G` and `H` both announced the
deployment address `1.1.1.1:80`; after the `delete` event for `G`, the
routing table pushed to the load balancer still contains that address —
an address contributed by a `G`-tagged node — because the `H`-tagged
node also carries it. -/
theorem c2_delete_counterexample :
    nodeG.gateway = "G"
    ∧ stC2.deployment_nodes = [("executor0", [nodeG, nodeH])]
    ∧ (currentStreamer (gateway_server_offline id stC2 "gateway/service_test/G")).map
          Streamer.executor_addresses
        = some [("executor0", [id nodeG.address])] := by
  decide

/-- Claim C2 as amended: after a `delete` for gateway `G`, no node
entry tagged `G` remains in the deployment map, and every address in
the routing table pushed to the load balancer is contributed by a
remaining node whose gateway tag differs from `G` (an address carried
only by `G`-tagged nodes is therefore absent). -/
theorem c2_delete_removes_gateway (hp : String → String) (st : GatewayState)
    (service : String) :
    (∀ p ∈ (gateway_server_offline hp st service).deployment_nodes,
        ∀ d ∈ p.2, d.gateway ≠ lastSegment service)
    ∧ ∀ s, currentStreamer (gateway_server_offline hp st service) = some s →
        ∀ p ∈ s.executor_addresses, ∀ a ∈ p.2,
          ∃ d, (∃ q ∈ (gateway_server_offline hp st service).deployment_nodes,
                  q.1 = p.1 ∧ d ∈ q.2)
            ∧ d.gateway ≠ lastSegment service ∧ hp d.address = a := by
  have hnodes : (gateway_server_offline hp st service).deployment_nodes
      = st.deployment_nodes.map fun p =>
          (p.1, p.2.filter fun n => decide (n.gateway ≠ lastSegment service)) := rfl
  have hgw : ∀ p ∈ (gateway_server_offline hp st service).deployment_nodes,
      ∀ d ∈ p.2, d.gateway ≠ lastSegment service := by
    intro p hpmem d hd
    rw [hnodes] at hpmem
    rcases List.mem_map.1 hpmem with ⟨q, _, rfl⟩
    rcases List.mem_filter.1 hd with ⟨_, hdec⟩
    exact of_decide_eq_true hdec
  refine ⟨hgw, ?_⟩
  intro s hs p hpmem a ha
  have hs' : currentStreamer (gateway_server_offline hp st service)
      = some (mkStreamer hp ((gateway_server_offline hp st service).deployment_nodes)) :=
    currentStreamer_update hp _
  rw [hs'] at hs
  cases hs
  rcases List.mem_map.1 hpmem with ⟨q, hq, rfl⟩
  have ha' := List.mem_dedup.1 ha
  rcases List.mem_map.1 ha' with ⟨d, hd, rfl⟩
  exact ⟨d, ⟨q, hq, rfl, hd⟩, hgw q hq d hd, rfl⟩

/-- Witness for the amended C2 at the shared-address state: the node
surviving the `delete` for `G` is not tagged `G`. -/
theorem c2_delete_removes_gateway_witness :
    nodeH.gateway ≠ lastSegment "gateway/service_test/G" := by
  have h := (c2_delete_removes_gateway id stC2 "gateway/service_test/G").1
  exact h ("executor0", [nodeH]) (by decide) nodeH (by decide)

/-- Claim C6 (code bug): a request whose command is unrecognized, or a
`job`/`nodes` request with an unrecognized action, raises `TypeError`
instead of returning a tagged error `Response`, because every call to
`error_response` omits its required `exception` parameter; only the
missing-`invoke_action` branch returns the tagged response the claim
describes. -/
theorem c6_unrecognized_raises :
    decode_request [] (.ok "job-1")
        { invoke_action := some { command := some "bogus", action := none } }
      = .error errorResponseArityError
    ∧ handle_job_command (.ok "job-1") { command := some "job", action := some "bogus" }
      = .error errorResponseArityError
    ∧ handle_nodes_command [] { command := some "nodes", action := some "bogus" }
      = .error errorResponseArityError
    ∧ decode_request [] (.ok "job-1") { invoke_action := none }
      = .ok (.response missingInvokeActionResponse) := by
  decide

/-- Claim C7 counterexample: a job request with action `cancel` falls
through to the unrecognized-action branch (which raises through the
one-argument `error_response` call) instead of reaching an implemented
handler with a non-error result. -/
theorem c7_cancel_counterexample :
    handle_job_command (.ok "job-1") { command := some "job", action := some "cancel" }
      = .error errorResponseArityError
    ∧ decode_request [] (.ok "job-1")
        { invoke_action := some { command := some "job", action := some "cancel" } }
      = .ok (.stream (.error errorResponseArityError)) := by
  decide

/-- Claim C7 as amended: `status`, `submit` (when the scheduler accepts
the job) and `list-nodes` dispatch to implemented handlers yielding
non-error results, while `cancel` falls through to the
unrecognized-action branch. -/
theorem c7_dispatch (dn : DeploymentNodes) (jid : String) :
    decode_request dn (.ok jid)
        { invoke_action := some { command := some "job", action := some "status" } }
      = .ok (.stream (.ok [.resp statusOkResponse]))
    ∧ decode_request dn (.ok jid)
        { invoke_action := some { command := some "job", action := some "submit" } }
      = .ok (.stream (.ok [.resp
          { parameters := [("status", "ok"), ("msg", "job submitted"), ("job_id", jid)] }]))
    ∧ decode_request dn (.ok jid)
        { invoke_action := some { command := some "nodes", action := some "list" } }
      = .ok (.stream (.ok [.data (nodesListDocs dn)
          [("status", "ok"), ("msg", "Received nodes list request")]]))
    ∧ decode_request dn (.ok jid)
        { invoke_action := some { command := some "job", action := some "cancel" } }
      = .ok (.stream (.error errorResponseArityError)) := by
  refine ⟨?_, ?_, ?_, ?_⟩ <;>
    simp [decode_request, handle_job_command, handle_nodes_command,
      handle_job_submit_command, error_response_call1, Except.map]

/-- Claim C8: after every topology update the newly installed streamer
is the one referenced by the gateway, `JobManager.SLOTS_AVAILABLE` is
assigned exactly the new balancer's `connection_count()`, and that count
is the number of addresses in the rebuilt routing table. -/
theorem c8_slots_track_connections (hp : String → String) (st : GatewayState) :
    currentStreamer (update_gateway_streamer hp st)
        = some (mkStreamer hp st.deployment_nodes)
    ∧ (update_gateway_streamer hp st).slots_available
        = (mkStreamer hp st.deployment_nodes).connection_count
    ∧ (mkStreamer hp st.deployment_nodes).connection_count
        = connectionCount (deriveAddresses hp st.deployment_nodes) :=
  ⟨currentStreamer_update hp st, rfl, rfl⟩

/-- Claim C9: the `WorkInfo` record submitted by a job-submit request is
independent of the request's content — `handle_job_submit_command` and
the `/job/submit` REST endpoint build the identical fixed record up to
the two clock readings. -/
theorem c9_workinfo_fixed (m1 m2 : InvokeAction) (t : String) (now1 now2 : Nat) :
    handleJobSubmitWorkInfo m1 now1 now2 = handleJobSubmitWorkInfo m2 now1 now2
    ∧ restJobSubmitWorkInfo t now1 now2 = handleJobSubmitWorkInfo m1 now1 now2
    ∧ handleJobSubmitWorkInfo m1 now1 now2
        = { name := "WorkInfo-001", priority := 0, data := [], state := .CREATED,
            retry_limit := 0, retry_delay := 0, retry_backoff := false,
            start_after := now1, expire_in_seconds := 0, keep_until := now2,
            on_complete := false } :=
  ⟨rfl, rfl, rfl⟩

/-- Claim C10: for every deployment map — including maps repeating an
address within one executor or across executors — the nodes-list
operation yields pairwise-distinct address texts. -/
theorem c10_nodes_list_distinct (dn : DeploymentNodes) : (nodesListDocs dn).Nodup :=
  collectNodeDocs_inv dn ([], []) List.nodup_nil (fun x hx => by cases hx)

end MarieGateway
